import Mathlib

/-!
Verification development for the `regex_labeler` repository
(`src/regex_labeler/regex_labeler.py`).

The core of the program is embedded shallowly:

* `_HasOverlap`, `_AddAnnotation`, `_AnnotateExample` (lines 101-188 of the
  source) and `_ParseDictionary` (lines 190-238) are translated as pure Lean
  functions.  Python exceptions are modelled with `Except String`; an
  `Except.error` value corresponds to the Python function raising.
* Python's `re` library is external to the repository.  `pyFinditer` below
  models `re.finditer` for the fragment of patterns the development needs:
  an optional leading and trailing word boundary, an optional single capture
  group around a literal, and a literal of ASCII word characters and spaces.
  Patterns outside this fragment make the model return an error, so every
  theorem conditioned on a successful run only ever speaks about patterns the
  model covers faithfully.  Theorems that do not depend on the matcher are
  stated for an arbitrary finditer function and therefore cover the real
  library as well.
* The dictionary parser consumes the rows produced by Python's `csv.reader`;
  reading the file itself is I/O and out of scope, so `_ParseDictionary` takes
  the row list directly.  The module-level constant `MAX_LABEL_LENGTH`
  (None in the source, never assigned) is passed as an `Option Nat` argument.
-/

set_option autoImplicit false

/-- Valid matching mode `EXACT_MATCH = 'e'` (source line 25). -/
def EXACT_MATCH : String := "e"

/-- Valid matching mode `IGNORE_CASE = 'i'` (source line 26). -/
def IGNORE_CASE : String := "i"

/-- Valid matching mode `REGEX = 'r'` (source line 27). -/
def REGEX : String := "r"

/-- `MATCHING_MODES` (source line 28). -/
def MATCHING_MODES : List String := [EXACT_MATCH, IGNORE_CASE, REGEX]

/-- The `LabelPattern` namedtuple (source lines 21-22). -/
structure LabelPattern where
  pattern : String
  label : String
  matching_mode : String
  matching_group : String
  deriving DecidableEq

/-- The `Annotation` namedtuple (source line 37): a half-open span
`[start, end)` with a label; offsets are Unicode code points.  The Python
field `end` is a Lean keyword, hence the guillemets. -/
structure Annotation where
  start : Int
  «end» : Int
  label : String
  deriving DecidableEq

/-- One jsonl example record: `text_snippet.content` plus its annotation
list (already in internal `Annotation` form, as produced by source
lines 129-135 and consumed back at line 187). -/
structure Example where
  content : String
  annotations : List Annotation
  deriving DecidableEq

/-- `_HasOverlap` (source lines 101-104), verbatim:
`a1.start >= a2.start and a1.start < a2.end or a1.end > a2.start and a1.end <= a2.end`. -/
def _HasOverlap (a1 a2 : Annotation ) : Bool :=
  (decide (a1.start ≥ a2.start) && decide (a1.start < a2.«end»)) ||
    (decide (a1.«end» > a2.start) && decide (a1.«end» ≤ a2.«end»))

/-- `_AddAnnotation` (source lines 137-142).  The closure mutates the local
`annotations` list; here it returns the new list together with the
added/not-added flag. -/
def _AddAnnotation ( annotation : Annotation ) (annotations : List Annotation ) :
    List Annotation × Bool :=
  if annotations.any (fun a => _HasOverlap annotation a) then (annotations, false)
  else (annotations ++ [ annotation ], true)

/-- Model of a Python `re` match object.  `spans` holds the half-open span of
group 0 (the whole match) at index 0 and of capture group `i` at index `i`;
`none` records a group that did not participate in the match. -/
structure RMatch where
  spans : List (Option (Nat × Nat))
  deriving DecidableEq

/-- `len(match.groups())`: the number of capture groups of the pattern. -/
def RMatch.ngroups (m : RMatch) : Nat := m.spans.length - 1

def errNoSuchGroup : String := "IndexError: no such group"

def errListIndex : String := "IndexError: list index out of range"

def errTypeNone : String := "TypeError: expected string or bytes-like object"

def errValueInt : String := "ValueError: invalid literal for int"

def errNameMatcher : String := "NameError: name matcher is not defined"

def errUnsupportedRegex : String := "re model: unsupported pattern"

/-- `match.start(g)`: raises `IndexError` unless `0 <= g <= ngroups`; returns
`-1` for a group that did not participate. -/
def matchStart (m : RMatch) (g : Int) : Except String Int :=
  if g < 0 then Except.error errNoSuchGroup
  else
    match m.spans.get? g.toNat with
    | none => Except.error errNoSuchGroup
    | some none => Except.ok (-1)
    | some (some (s, _)) => Except.ok (s : Int)

/-- `match.end(g)`, same conventions as `matchStart`. -/
def matchEnd (m : RMatch) (g : Int) : Except String Int :=
  if g < 0 then Except.error errNoSuchGroup
  else
    match m.spans.get? g.toNat with
    | none => Except.error errNoSuchGroup
    | some none => Except.ok (-1)
    | some (some (_, e)) => Except.ok (e : Int)

/-- Python truthiness of `not match.group(g)` for a group already known to
exist: `True` for `None` (group did not participate) and for the empty
string (span of zero width). -/
def groupFalsy (m : RMatch) (g : Int) : Bool :=
  match m.spans.get? g.toNat with
  | some (some (s, e)) => s == e
  | _ => true

/-- Whether `match.group(1)` is `None` (group 1 exists but did not
participate), which makes `re.split` at source line 180 raise `TypeError`. -/
def group1None (m : RMatch) : Bool :=
  match m.spans.get? 1 with
  | some none => true
  | _ => false

/-- Python `str.strip()`: remove leading and trailing whitespace. -/
def pyStrip (s : String) : String :=
  ⟨((s.data.dropWhile Char.isWhitespace).reverse.dropWhile Char.isWhitespace).reverse⟩

/-- Python `str.lower()` on the ASCII strings this development uses. -/
def pyLower (s : String) : String := ⟨s.data.map Char.toLower⟩

/-- Python `int(...)` on a string (source line 164): optional sign and
decimal digits, surrounding whitespace allowed; anything else raises
`ValueError`. -/
def pyInt (s : String) : Except String Int :=
  let t := pyStrip s
  let p : Bool × List Char :=
    match t.toList with
    | '-' :: rest => (true, rest)
    | '+' :: rest => (false, rest)
    | cs => (false, cs)
  if p.2 ≠ [] ∧ p.2.all Char.isDigit then
    let n : Nat := p.2.foldl (fun acc c => acc * 10 + (c.toNat - 48)) 0
    Except.ok (if p.1 then -(n : Int) else (n : Int))
  else Except.error errValueInt

/-- ASCII model of the `\w` character class used with `re.UNICODE` on the
ASCII texts of this development. -/
def isWordChar (c : Char) : Bool := c.isAlphanum || c == '_'

/-- Characters the regex model treats as plain literals. -/
def isLitChar (c : Char) : Bool := isWordChar c || c == ' '

/-- The compiled form of a pattern in the supported fragment:
`[\b] [(] literal [)] [\b]`. -/
structure CompiledRegex where
  lbound : Bool
  grouped : Bool
  lit : List Char
  rbound : Bool
  deriving DecidableEq

/-- Tail of a pattern after the literal: nothing or a closing `\b`. -/
def tailBoundary (cs : List Char) : Option Bool :=
  match cs with
  | [] => some false
  | ['\\', 'b'] => some true
  | _ => none

/-- Strip a leading `\b`, reporting whether one was present. -/
def stripLB (cs : List Char) : Bool × List Char :=
  if cs.take 2 = ['\\', 'b'] then (true, cs.drop 2) else (false, cs)

/-- Strip a leading `(`, reporting whether one was present. -/
def stripGroup (cs : List Char) : Bool × List Char :=
  if cs.head? = some '(' then (true, cs.tail) else (false, cs)

/-- Strip the `)` closing an open group, if a group was open. -/
def closeGroup (grouped : Bool) (cs : List Char) : Option (List Char) :=
  if grouped then (if cs.head? = some ')' then some cs.tail else none) else some cs

/-- Compile a pattern string of the supported fragment; `none` for patterns
outside the fragment. -/
def compileRegex (s : String) : Option CompiledRegex :=
  let pr := stripLB s.toList
  let gp := stripGroup pr.2
  let lit := gp.2.takeWhile isLitChar
  match closeGroup gp.1 (gp.2.dropWhile isLitChar) with
  | none => none
  | some r => (tailBoundary r).map (fun rb => ⟨pr.1, gp.1, lit, rb⟩)

/-- Whether position `j` of the text holds a word character. -/
def wordAt (cs : List Char) (j : Nat) : Bool :=
  match cs.get? j with
  | some c => isWordChar c
  | none => false

/-- Python `\b`: position `j` is a word boundary iff exactly one of the
characters around it is a word character (out of range counts as non-word). -/
def isBoundary (cs : List Char) (j : Nat) : Bool :=
  (if j = 0 then false else wordAt cs (j - 1)) != wordAt cs j

/-- Whether the literal matches the text at position `i`
(case-insensitively when `ic` is set, as `re.IGNORECASE` does). -/
def litMatchesAt (cs lit : List Char) (i : Nat) (ic : Bool) : Bool :=
  let seg := (cs.drop i).take lit.length
  if ic then seg.map Char.toLower == lit.map Char.toLower else seg == lit

/-- Whether the compiled pattern matches the text at position `i`. -/
def tryMatchAt (p : CompiledRegex) (cs : List Char) (ic : Bool) (i : Nat) : Bool :=
  (!p.lbound || isBoundary cs i) && litMatchesAt cs p.lit i ic &&
    (!p.rbound || isBoundary cs (i + p.lit.length))

/-- The match object produced by a match of the compiled pattern at `i`. -/
def mkMatch (p : CompiledRegex) (i : Nat) : RMatch :=
  ⟨some (i, i + p.lit.length) ::
    (if p.grouped then [some (i, i + p.lit.length)] else [])⟩

/-- The scan loop of `re.finditer`: leftmost matches, continuing after the
end of each match (advancing by one position after a zero-width match). -/
def scanFrom (p : CompiledRegex) (cs : List Char) (ic : Bool) : Nat → Nat → List RMatch
  | 0, _ => []
  | Nat.succ fuel, pos =>
    if pos > cs.length then []
    else if tryMatchAt p cs ic pos then
      mkMatch p pos :: scanFrom p cs ic fuel (pos + max p.lit.length 1)
    else scanFrom p cs ic fuel (pos + 1)

/-- Model of `re.finditer(regex, text, flags)` on the supported fragment.
`re.UNICODE` is always set in the source; `ic` records `re.IGNORECASE`.
Like the library, the whole call fails (at compile time of the regex) if the
pattern is not handled. -/
def pyFinditer (regex : String) (text : String) (ic : Bool) : Except String (List RMatch) :=
  match compileRegex regex with
  | none => Except.error errUnsupportedRegex
  | some p =>
    let cs := text.toList
    Except.ok (scanFrom p cs ic (cs.length + 1) 0)

/-- Generic left fold that propagates the first `Except.error`, mirroring a
Python `for` loop whose body may raise. -/
def foldE {σ α : Type} (step : σ → α → Except String σ) : σ → List α → Except String σ
  | s, [] => Except.ok s
  | s, x :: xs =>
    match step s x with
    | Except.error e => Except.error e
    | Except.ok s1 => foldE step s1 xs

/-- Body of the `for match in matcher` loop (source lines 167-185).
Line 168 calls `match.start/end(label_group)` (raising for a group index
that does not exist), line 171 is the skip guard, line 174-175 builds and
inserts the annotation, line 176 evaluates `match.group(1)` inside the log
call (raising `IndexError` when the pattern has no capture group), and line
180 applies `re.split` to `match.group(1)` when the annotation was added
(raising `TypeError` when group 1 did not participate); the token-count
check itself only logs. -/
def processMatch (label_group : Int) (label : String) (annotations : List Annotation )
    (m : RMatch) : Except String (List Annotation ) :=
  match matchStart m label_group with
  | Except.error e => Except.error e
  | Except.ok s0 =>
    match matchEnd m label_group with
    | Except.error e => Except.error e
    | Except.ok e0 =>
      if s0 ≥ e0 then Except.ok annotations
      else if (m.ngroups : Int) < label_group then Except.ok annotations
      else if groupFalsy m label_group then Except.ok annotations
      else
        let p := _AddAnnotation ⟨s0, e0, label⟩ annotations
        if m.ngroups < 1 then Except.error errNoSuchGroup
        else if p.2 && group1None m then Except.error errTypeNone
        else Except.ok p.1

/-- The mode dispatch (source lines 148-161): EXACT_MATCH wraps the pattern
in `\b...\b`, IGNORE_CASE adds `re.IGNORECASE`, REGEX uses the pattern
verbatim.  There is no `else` branch in the source, so an unrecognized mode
leaves `matcher` unassigned — modelled by `none`. -/
def ruleMatcher (finditer : String → String → Bool → Except String (List RMatch))
    (lp : LabelPattern) (example_text : String) : Option (Except String (List RMatch)) :=
  if lp.matching_mode = EXACT_MATCH then
    some (finditer ("\\b" ++ lp.pattern ++ "\\b") example_text false)
  else if lp.matching_mode = IGNORE_CASE then
    some (finditer lp.pattern example_text true)
  else if lp.matching_mode = REGEX then
    some (finditer lp.pattern example_text false)
  else none

/-- One iteration of the `for label_pattern in label_patterns` loop (source
lines 144-185).  The state is `(matcher has been assigned, annotations)`.
When the mode is unrecognized the stale `matcher` generator from an earlier
rule is reused; it is already exhausted, so the match loop runs zero times —
unless no rule assigned it yet, in which case Python raises `NameError`.
`label_group` (source lines 163-166) is computed after the dispatch and
before the match loop. -/
def annotateStep (finditer : String → String → Bool → Except String (List RMatch))
    (example_text : String) (st : Bool × List Annotation ) (lp : LabelPattern) :
    Except String (Bool × List Annotation ) :=
  match ruleMatcher finditer lp example_text with
  | some (Except.error e) => Except.error e
  | some (Except.ok ms) =>
    match (if lp.matching_group.length ≠ 0 then pyInt lp.matching_group else Except.ok 0) with
    | Except.error e => Except.error e
    | Except.ok label_group =>
      match foldE (processMatch label_group lp.label) st.2 ms with
      | Except.error e => Except.error e
      | Except.ok anns => Except.ok (true, anns)
  | none =>
    match (if lp.matching_group.length ≠ 0 then pyInt lp.matching_group else Except.ok 0) with
    | Except.error e => Except.error e
    | Except.ok _ =>
      if st.1 then Except.ok (true, st.2)
      else Except.error errNameMatcher

/-- `_AnnotateExample` (source lines 119-188), parameterized by the finditer
function so that matcher-independent properties can be proved for any
matcher behaviour.  On success the example's annotation list is replaced
(source line 187); the text is untouched. -/
def _AnnotateExampleWith (finditer : String → String → Bool → Except String (List RMatch))
    (ex : Example ) (label_patterns : List LabelPattern) : Except String Example :=
  match foldE (annotateStep finditer ex.content) (false, ex.annotations)
      label_patterns with
  | Except.error e => Except.error e
  | Except.ok st => Except.ok ⟨ex.content, st.2⟩

/-- `_AnnotateExample` with the concrete `re.finditer` model. -/
def _AnnotateExample (ex : Example ) (label_patterns : List LabelPattern) :
    Except String Example :=
  _AnnotateExampleWith pyFinditer ex label_patterns

/-- Length of the leading `\w+` run of a label, i.e. of
`re.match(r'\w+', label)` (source line 225); `0` when there is no match. -/
def wordRunLen (label : String) : Nat := (label.toList.takeWhile isWordChar).length

/-- The label validation of source lines 225-232:
`if m and MAX_LABEL_LENGTH and len(m.group(0)) > MAX_LABEL_LENGTH`.
`None` and `0` are falsy, so the check never fires when no positive maximum
is configured. -/
def labelInvalid (MAX_LABEL_LENGTH : Option Nat) (label : String) : Bool :=
  match MAX_LABEL_LENGTH with
  | none => false
  | some mx => decide (0 < wordRunLen label) && (mx != 0) && decide (mx < wordRunLen label)

/-- One iteration of the row loop of `_ParseDictionary` (source lines
205-234).  The state is `(label_patterns, pattern_and_mode)`.  A row with
fewer than 2 fields is skipped; then `row[0]`, `row[1]` and `row[2]` are
read — `row[2]` unconditionally, so a 2-field row raises `IndexError` —
`row[3]` is guarded by `len(row) > 3`; then the empty, duplicate and label
checks run in that order, and only a fully accepted row is registered. -/
def parseStep (MAX_LABEL_LENGTH : Option Nat)
    (st : List LabelPattern × List (String × String)) (row : List String) :
    Except String (List LabelPattern × List (String × String)) :=
  if row.length < 2 then Except.ok st
  else
    let pattern := pyStrip (row.getD 0 "")
    let label := pyStrip (row.getD 1 "")
    match row.get? 2 with
    | none => Except.error errListIndex
    | some c2 =>
      let mode0 := pyLower (pyStrip c2)
      let group := if 3 < row.length then pyStrip (row.getD 3 "") else ""
      let mode := if MATCHING_MODES.contains mode0 then mode0 else EXACT_MATCH
      if pattern = "" ∨ label = "" then Except.ok st
      else if st.2.contains (pattern, mode) then Except.ok st
      else if labelInvalid MAX_LABEL_LENGTH label then Except.ok st
      else Except.ok (st.1 ++ [⟨pattern, label, mode, group⟩], st.2 ++ [(pattern, mode)])

/-- `_ParseDictionary` (source lines 190-238) over the rows delivered by
`csv.reader`; returns the accepted `LabelPattern` list in row order. -/
def _ParseDictionary (MAX_LABEL_LENGTH : Option Nat) (rows : List (List String)) :
    Except String (List LabelPattern) :=
  match foldE (parseStep MAX_LABEL_LENGTH) ([], []) rows with
  | Except.error e => Except.error e
  | Except.ok st => Except.ok st.1

/-! ## Helper lemmas about the annotation loop -/

theorem _AddAnnotation_of_overlap {c a : Annotation } {anns : List Annotation }
    (ha : a ∈ anns) (hov : _HasOverlap c a = true) :
    _AddAnnotation c anns = (anns, false) := by
  unfold _AddAnnotation
  rw [if_pos]
  exact List.any_eq_true.mpr ⟨a, ha, hov⟩

theorem processMatch_ok {g : Int} {lbl : String} {anns anns' : List Annotation } {m : RMatch}
    (h : processMatch g lbl anns m = Except.ok anns') :
    anns' = anns ∨ ∃ c, anns' = anns ++ [c] ∧ ∀ a ∈ anns, _HasOverlap c a = false := by
  unfold processMatch at h
  cases h1 : matchStart m g with
  | error e => rw [h1] at h; cases h
  | ok s0 =>
    rw [h1] at h
    cases h2 : matchEnd m g with
    | error e => rw [h2] at h; cases h
    | ok e0 =>
      rw [h2] at h
      dsimp only at h
      by_cases h3 : s0 ≥ e0
      · rw [if_pos h3] at h; injection h with h; exact Or.inl h.symm
      · rw [if_neg h3] at h
        by_cases h4 : (m.ngroups : Int) < g
        · rw [if_pos h4] at h; injection h with h; exact Or.inl h.symm
        · rw [if_neg h4] at h
          by_cases h5 : groupFalsy m g = true
          · rw [if_pos h5] at h; injection h with h; exact Or.inl h.symm
          · rw [if_neg h5] at h
            by_cases hadd : anns.any (fun a => _HasOverlap ⟨s0, e0, lbl⟩ a) = true
            · simp only [ _AddAnnotation, if_pos hadd] at h
              by_cases h6 : m.ngroups < 1
              · rw [if_pos h6] at h; cases h
              · rw [if_neg h6] at h
                simp only [Bool.false_and, Bool.and_eq_true] at h
                injection h with h
                exact Or.inl h.symm
            · simp only [ _AddAnnotation, if_neg hadd] at h
              by_cases h6 : m.ngroups < 1
              · rw [if_pos h6] at h; cases h
              · rw [if_neg h6] at h
                by_cases h7 : group1None m = true
                · simp only [h7, Bool.true_and, Bool.and_true, if_pos] at h
                  cases h
                · simp only [h7, Bool.and_false, Bool.true_and, if_neg,
                    Bool.false_eq_true, not_false_eq_true] at h
                  injection h with h
                  refine Or.inr ⟨⟨s0, e0, lbl⟩, h.symm, ?_⟩
                  intro a ha
                  have := List.any_eq_false.mp (Bool.eq_false_iff.mpr hadd) a ha
                  simpa using this

theorem foldE_inv {σ α : Type} {P : σ → Prop} {step : σ → α → Except String σ}
    (hstep : ∀ s x s', step s x = Except.ok s' → P s → P s') :
    ∀ (l : List α) (s s' : σ), foldE step s l = Except.ok s' → P s → P s' := by
  intro l
  induction l with
  | nil =>
    intro s s' h hp
    simp only [foldE] at h
    injection h with h
    exact h ▸ hp
  | cons x xs ih =>
    intro s s' h hp
    simp only [foldE] at h
    cases hx : step s x with
    | error e => rw [hx] at h; cases h
    | ok s1 => rw [hx] at h; exact ih s1 s' h (hstep s x s1 hx hp)

/-- `AddedOk ctx new`: reading `new` left to right, each element, taken as
span `a` of the overlap test, fails the test against everything already
present (the context plus the earlier elements of `new`).  This is the shape
of the guarantee `_AddAnnotation` actually enforces. -/
def AddedOk : List Annotation → List Annotation → Prop
  | _, [] => True
  | ctx, c :: rest => (∀ a ∈ ctx, _HasOverlap c a = false) ∧ AddedOk (ctx ++ [c]) rest

theorem AddedOk_snoc : ∀ (ctx new : List Annotation ) (c : Annotation ),
    AddedOk ctx new → (∀ a ∈ ctx ++ new, _HasOverlap c a = false) →
    AddedOk ctx (new ++ [c]) := by
  intro ctx new
  induction new generalizing ctx with
  | nil =>
    intro c _ hc
    refine ⟨fun a ha => hc a (by simpa using ha), trivial⟩
  | cons d rest ih =>
    intro c h hc
    refine ⟨h.1, ih (ctx ++ [d]) c h.2 ?_⟩
    intro a ha
    refine hc a ?_
    simp only [List.mem_append, List.mem_cons, List.mem_singleton] at ha ⊢
    tauto

theorem processMatch_inv {pre : List Annotation } {g : Int} {lbl : String}
    {anns anns' : List Annotation } {m : RMatch}
    (h : processMatch g lbl anns m = Except.ok anns')
    (hp : ∃ new, anns = pre ++ new ∧ AddedOk pre new) :
    ∃ new, anns' = pre ++ new ∧ AddedOk pre new := by
  rcases processMatch_ok h with rfl | ⟨c, rfl, hov⟩
  · exact hp
  · rcases hp with ⟨new, rfl, hok⟩
    exact ⟨new ++ [c], by simp, AddedOk_snoc pre new c hok hov⟩

theorem annotateStep_inv {f : String → String → Bool → Except String (List RMatch)}
    {text : String} {pre : List Annotation } {st st' : Bool × List Annotation }
    {lp : LabelPattern}
    (h : annotateStep f text st lp = Except.ok st')
    (hp : ∃ new, st.2 = pre ++ new ∧ AddedOk pre new) :
    ∃ new, st'.2 = pre ++ new ∧ AddedOk pre new := by
  unfold annotateStep at h
  cases hr : ruleMatcher f lp text with
  | none =>
    rw [hr] at h
    cases hg : (if lp.matching_group.length ≠ 0 then pyInt lp.matching_group
        else Except.ok 0) with
    | error e => rw [hg] at h; cases h
    | ok g =>
      rw [hg] at h
      by_cases hb : st.1 = true
      · rw [if_pos hb] at h
        injection h with h
        rw [← h]
        exact hp
      · rw [if_neg hb] at h; cases h
  | some r =>
    rw [hr] at h
    cases r with
    | error e => cases h
    | ok ms =>
      cases hg : (if lp.matching_group.length ≠ 0 then pyInt lp.matching_group
          else Except.ok 0) with
      | error e => rw [hg] at h; cases h
      | ok g =>
        rw [hg] at h
        dsimp only at h
        cases hf : foldE (processMatch g lp.label) st.2 ms with
        | error e => rw [hf] at h; cases h
        | ok anns =>
          rw [hf] at h
          injection h with h
          rw [← h]
          exact foldE_inv (fun s x s' hs hp => processMatch_inv hs hp) ms st.2 anns hf hp

theorem annotate_fold_inv {f : String → String → Bool → Except String (List RMatch)}
    {text : String} {st st' : Bool × List Annotation } {lps : List LabelPattern}
    (h : foldE (annotateStep f text) st lps = Except.ok st') :
    ∃ new, st'.2 = st.2 ++ new ∧ AddedOk st.2 new :=
  foldE_inv (fun _ _ _ hs hp => annotateStep_inv hs hp) lps st st' h
    ⟨[], by simp, trivial⟩

/-! ## Claims -/

/-- C5: the overlap test of section 4.3.  `_HasOverlap a b` is true iff
`a.start` lies in `[b.start, b.end)` or `a.end` lies in `(b.start, b.end]`;
consequently a candidate `[3,6)` against an existing `[0,3)` is not an
overlap and both spans are kept, while a candidate `[2,5)` against `[0,3)`
is an overlap and is dropped. -/
theorem c5_overlap_test :
    (∀ (a b : Annotation ), _HasOverlap a b = true ↔
      ((b.start ≤ a.start ∧ a.start < b.«end») ∨
        (b.start < a.«end» ∧ a.«end» ≤ b.«end»))) ∧
    _HasOverlap ⟨3, 6, "CAND"⟩ ⟨0, 3, "OLD"⟩ = false ∧
    _AddAnnotation ⟨3, 6, "CAND"⟩ [⟨0, 3, "OLD"⟩] =
      ([⟨0, 3, "OLD"⟩, ⟨3, 6, "CAND"⟩], true) ∧
    _HasOverlap ⟨2, 5, "CAND"⟩ ⟨0, 3, "OLD"⟩ = true ∧
    _AddAnnotation ⟨2, 5, "CAND"⟩ [⟨0, 3, "OLD"⟩] = ([⟨0, 3, "OLD"⟩], false) := by
  refine ⟨?_, by decide, by decide, by decide, by decide⟩
  intro a b
  simp only [_HasOverlap, Bool.or_eq_true, Bool.and_eq_true, decide_eq_true_eq]

/-- C1 (counterexample): the produced annotation set is NOT overlap-free in
both orientations of the test.  The text `"abcdef"` with the pre-existing
annotation `[1,4)` and the single REGEX rule `(abcdef)` yields the set
`{[1,4), [0,6)}`, and taking the pre-existing `[1,4)` as span `a` the
overlap test returns true: `_HasOverlap` is asymmetric, and a candidate
that strictly contains an existing annotation passes the insertion check. -/
theorem c1_nonoverlap_counterexample :
    _AnnotateExample ⟨"abcdef", [⟨1, 4, "X"⟩]⟩ [⟨"(abcdef)", "L", "r", ""⟩] =
      Except.ok ⟨"abcdef", [⟨1, 4, "X"⟩, ⟨0, 6, "L"⟩]⟩ ∧
    _HasOverlap ⟨1, 4, "X"⟩ ⟨0, 6, "L"⟩ = true :=
  ⟨rfl, rfl⟩

/-- C1 (amended): what `_AnnotateExample` does guarantee — for any finditer
behaviour whatsoever — is one-directional: every annotation it adds, taken
as span `a` of the overlap test, fails the test against every annotation
present at the moment of its insertion (all pre-existing ones and all
earlier-added ones).  Pre-existing pairs are unconstrained, and the reversed
orientation of the asymmetric test can still report an overlap. -/
theorem c1_nonoverlap_amended (f : String → String → Bool → Except String (List RMatch))
    (ex : Example ) (lps : List LabelPattern) (out : Example )
    (h : _AnnotateExampleWith f ex lps = Except.ok out) :
    ∃ new, out.annotations = ex.annotations ++ new ∧ AddedOk ex.annotations new := by
  unfold _AnnotateExampleWith at h
  cases hf : foldE (annotateStep f ex.content) (false, ex.annotations) lps with
  | error e => rw [hf] at h; cases h
  | ok st =>
    rw [hf] at h
    dsimp only at h
    injection h with h
    rw [← h]
    exact annotate_fold_inv hf

theorem c1_nonoverlap_amended_witness :
    ∃ new, ([⟨100, 200, "X"⟩, ⟨0, 3, "L"⟩] : List Annotation ) =
        [⟨100, 200, "X"⟩] ++ new ∧ AddedOk [⟨100, 200, "X"⟩] new :=
  c1_nonoverlap_amended pyFinditer ⟨"abcdef", [⟨100, 200, "X"⟩]⟩
    [⟨"(abc)", "L", "r", ""⟩] ⟨"abcdef", [⟨100, 200, "X"⟩, ⟨0, 3, "L"⟩]⟩ rfl

/-- C2 (counterexample): annotating `"Book a flight to Paris tomorrow"` with
the rules `("Paris","CITY","e","")`, `("flight","TRANSPORT","e","")` does
not return the claimed annotations — it raises.  The first match reaches
the log call `match.group(1)` (source line 176) and the pattern
`\bParis\b` has no capture group, so `IndexError` propagates.  (The claimed
offsets 18/23 and 8/14 are also 1-based; the code-point offsets of the
matches are `[17,22)` and `[7,13)`.) -/
theorem c2_endtoend_counterexample :
    _AnnotateExample ⟨"Book a flight to Paris tomorrow", []⟩
        [⟨"Paris", "CITY", "e", ""⟩, ⟨"flight", "TRANSPORT", "e", ""⟩] =
      Except.error errNoSuchGroup ∧
    _AnnotateExample ⟨"Book a flight to Paris tomorrow", []⟩
        [⟨"Paris", "CITY", "e", ""⟩, ⟨"flight", "TRANSPORT", "e", ""⟩] ≠
      Except.ok ⟨"Book a flight to Paris tomorrow",
        [⟨18, 23, "CITY"⟩, ⟨8, 14, "TRANSPORT"⟩]⟩ := by
  refine ⟨rfl, ?_⟩
  intro hcontra
  have h1 : _AnnotateExample ⟨"Book a flight to Paris tomorrow", []⟩
      [⟨"Paris", "CITY", "e", ""⟩, ⟨"flight", "TRANSPORT", "e", ""⟩] =
      Except.error errNoSuchGroup := rfl
  exact Except.noConfusion (h1.symm.trans hcontra)

/-- C2 (amended): on that input `_AnnotateExample` raises
`IndexError: no such group` (from `match.group(1)` in the logging call,
the pattern having no capture group) and returns no annotated example. -/
theorem c2_endtoend_amended :
    _AnnotateExample ⟨"Book a flight to Paris tomorrow", []⟩
        [⟨"Paris", "CITY", "e", ""⟩, ⟨"flight", "TRANSPORT", "e", ""⟩] =
      Except.error errNoSuchGroup :=
  rfl

/-- C3 (evaluation at the failing input): a rule whose matching group `1`
does not exist in the match makes `_AnnotateExample` raise `IndexError`
at `match.start(label_group)` (source line 168) instead of discarding the
candidate — the guard at line 171 comes too late. -/
theorem c3_no_raise_eval :
    _AnnotateExample ⟨"a", []⟩ [⟨"a", "L", "e", "1"⟩] =
      Except.error errNoSuchGroup :=
  rfl

/-- C4 (evaluation at the failing input): a well-formed 2-field row makes
`_ParseDictionary` raise `IndexError` — `row[2]` (source line 212) is read
unconditionally, only `row[3]` is guarded — so the whole parse fails
instead of accepting the row with mode EXACT. -/
theorem c4_two_column_eval :
    _ParseDictionary none [["Paris", "CITY"]] = Except.error errListIndex :=
  rfl

/-- C6: first-claimed-wins.  If an annotation `a` is committed in the
annotation state and the remaining rules complete without raising, then
`a` is still present in the final state (never removed or altered), and any
candidate `c` that overlaps `a` under the section 4.3 test is dropped by
`_AddAnnotation`, leaving the annotation set unchanged.  Stated for an
arbitrary finditer function, so it covers every matcher behaviour. -/
theorem c6_priority (f : String → String → Bool → Except String (List RMatch))
    (text : String) (st : Bool × List Annotation ) (lps : List LabelPattern)
    (st' : Bool × List Annotation )
    (h : foldE (annotateStep f text) st lps = Except.ok st') :
    ∀ a ∈ st.2, a ∈ st'.2 ∧
      ∀ c, _HasOverlap c a = true → _AddAnnotation c st'.2 = (st'.2, false) := by
  intro a ha
  rcases annotate_fold_inv h with ⟨new, heq, -⟩
  have hmem : a ∈ st'.2 := by rw [heq]; exact List.mem_append_left _ ha
  exact ⟨hmem, fun c hov => _AddAnnotation_of_overlap hmem hov⟩

theorem c6_priority_witness :
    (⟨0, 3, "R1"⟩ : Annotation ) ∈ [(⟨0, 3, "R1"⟩ : Annotation )] ∧
      ∀ c, _HasOverlap c ⟨0, 3, "R1"⟩ = true →
        _AddAnnotation c [⟨0, 3, "R1"⟩] = ([⟨0, 3, "R1"⟩], false) :=
  c6_priority pyFinditer ("abcdef") (false, [⟨0, 3, "R1"⟩]) [⟨"x", "LX", "r", ""⟩]
    (true, [⟨0, 3, "R1"⟩]) rfl ⟨0, 3, "R1"⟩ (List.mem_singleton.mpr rfl)

/-- C9: frame.  For every finditer behaviour, example and rule list, a
successful `_AnnotateExample` run leaves the text unchanged and its output
annotation sequence is the pre-existing annotations, unaltered and in their
original order, followed by the newly added ones in insertion order. -/
theorem c9_frame (f : String → String → Bool → Except String (List RMatch))
    (ex : Example ) (lps : List LabelPattern) (out : Example )
    (h : _AnnotateExampleWith f ex lps = Except.ok out) :
    out.content = ex.content ∧ ∃ new, out.annotations = ex.annotations ++ new := by
  unfold _AnnotateExampleWith at h
  cases hf : foldE (annotateStep f ex.content) (false, ex.annotations) lps with
  | error e => rw [hf] at h; cases h
  | ok st =>
    rw [hf] at h
    dsimp only at h
    injection h with h
    rw [← h]
    rcases annotate_fold_inv hf with ⟨new, heq, -⟩
    exact ⟨rfl, new, heq⟩

theorem c9_frame_witness :
    ("abcdef" : String) = "abcdef" ∧
      ∃ new, ([⟨1, 4, "X"⟩] : List Annotation ) = [⟨1, 4, "X"⟩] ++ new :=
  c9_frame pyFinditer ⟨"abcdef", [⟨1, 4, "X"⟩]⟩ [⟨"(abc)", "L", "r", ""⟩]
    ⟨"abcdef", [⟨1, 4, "X"⟩]⟩ rfl

/-! ## Word-boundary facts about the regex model (claim C7) -/

theorem takeWhile_append_of_all {f : Char → Bool} :
    ∀ (l r : List Char), (∀ c ∈ l, f c = true) →
      (∀ c, r.head? = some c → f c = false) →
      (l ++ r).takeWhile f = l ∧ (l ++ r).dropWhile f = r := by
  intro l r
  induction l with
  | nil =>
    intro _ hr
    cases r with
    | nil => simp
    | cons c cs =>
      have hc := hr c rfl
      simp [List.takeWhile_cons, List.dropWhile_cons, hc]
  | cons c cs ih =>
    intro hl hr
    have hc : f c = true := hl c (List.mem_cons_self c cs)
    have := ih (fun x hx => hl x (List.mem_cons_of_mem c hx)) hr
    simp [List.takeWhile_cons, List.dropWhile_cons, hc, this.1, this.2]

theorem compileRegex_exact {p : String} (hne : p.toList ≠ [])
    (hw : ∀ c ∈ p.toList, isWordChar c = true) :
    compileRegex ("\\b" ++ p ++ "\\b") = some ⟨true, false, p.toList, true⟩ := by
  have hlit : ∀ c ∈ p.toList, isLitChar c = true := by
    intro c hc
    simp only [isLitChar, Bool.or_eq_true]
    exact Or.inl (hw c hc)
  have hlist : ("\\b" ++ p ++ "\\b").toList = '\\' :: 'b' :: (p.toList ++ ['\\', 'b']) := by
    show ("\\b").toList ++ p.toList ++ ("\\b").toList = _
    simp
  have htw := takeWhile_append_of_all (f := isLitChar) p.toList ['\\', 'b'] hlit
    (by intro c hc; injection hc with hc; rw [← hc]; decide)
  obtain ⟨c0, cs0, hp⟩ : ∃ c0 cs0, p.toList = c0 :: cs0 := by
    cases hv : p.toList with
    | nil => exact absurd hv hne
    | cons a l => exact ⟨a, l, rfl⟩
  have hc0 : c0 ≠ '(' := by
    intro hcontra
    have := hw c0 (by rw [hp]; exact List.mem_cons_self c0 cs0)
    rw [hcontra] at this
    exact absurd this (by decide)
  unfold compileRegex
  rw [hlist]
  have h1 : stripLB ('\\' :: 'b' :: (p.toList ++ ['\\', 'b'])) =
      (true, p.toList ++ ['\\', 'b']) := rfl
  rw [h1]
  dsimp only
  have h2 : stripGroup (p.toList ++ ['\\', 'b']) = (false, p.toList ++ ['\\', 'b']) := by
    unfold stripGroup
    rw [hp]
    rw [if_neg (by simp [hc0])]
  rw [h2]
  dsimp only
  rw [htw.1, htw.2]
  rfl

theorem mem_scanFrom {p : CompiledRegex} {cs : List Char} {ic : Bool} :
    ∀ (fuel pos : Nat) (m : RMatch), m ∈ scanFrom p cs ic fuel pos →
      ∃ i, tryMatchAt p cs ic i = true ∧ m = mkMatch p i := by
  intro fuel
  induction fuel with
  | zero => intro pos m h; simp [scanFrom] at h
  | succ fuel ih =>
    intro pos m h
    simp only [scanFrom] at h
    by_cases h1 : pos > cs.length
    · rw [if_pos h1] at h; simp at h
    · rw [if_neg h1] at h
      by_cases h2 : tryMatchAt p cs ic pos = true
      · rw [if_pos h2] at h
        rcases List.mem_cons.mp h with rfl | h3
        · exact ⟨pos, h2, rfl⟩
        · exact ih _ m h3
      · rw [if_neg h2] at h
        exact ih _ m h

theorem tryMatchAt_exact {p : String} {cs : List Char} {i : Nat}
    (hne : p.toList ≠ []) (hw : ∀ c ∈ p.toList, isWordChar c = true)
    (h : tryMatchAt ⟨true, false, p.toList, true⟩ cs false i = true) :
    (i = 0 ∨ wordAt cs (i - 1) = false) ∧ wordAt cs (i + p.toList.length) = false := by
  have hlen : 0 < p.toList.length := List.length_pos.mpr hne
  unfold tryMatchAt at h
  dsimp only at h
  simp only [Bool.not_true, Bool.false_or, Bool.and_eq_true] at h
  obtain ⟨⟨hb1, hlit⟩, hb2⟩ := h
  unfold litMatchesAt at hlit
  dsimp only at hlit
  have hseg : (cs.drop i).take p.toList.length = p.toList := eq_of_beq hlit
  have hget : ∀ k, k < p.toList.length → cs.get? (i + k) = p.toList.get? k := by
    intro k hk
    have h1 : ((cs.drop i).take p.toList.length).get? k = p.toList.get? k := by rw [hseg]
    rw [List.get?_take hk, List.get?_drop] at h1
    exact h1
  obtain ⟨c0, cs0, hp⟩ : ∃ c0 cs0, p.toList = c0 :: cs0 := by
    cases hv : p.toList with
    | nil => exact absurd hv hne
    | cons a l => exact ⟨a, l, rfl⟩
  have hc0 : p.toList.get? 0 = some c0 := by rw [hp]; rfl
  have hcs0 : cs.get? i = some c0 := by
    have := hget 0 hlen
    rw [Nat.add_zero] at this
    exact this.trans hc0
  have hword0 : wordAt cs i = true := by
    unfold wordAt
    rw [hcs0]
    exact hw c0 (List.get?_mem hc0)
  unfold isBoundary at hb1
  rw [hword0] at hb1
  have hx : (if i = 0 then false else wordAt cs (i - 1)) = false := by
    cases hv : (if i = 0 then false else wordAt cs (i - 1)) with
    | false => rfl
    | true => rw [hv] at hb1; exact absurd hb1 (by decide)
  refine ⟨?_, ?_⟩
  · by_cases hi : i = 0
    · exact Or.inl hi
    · right
      rw [if_neg hi] at hx
      exact hx
  · obtain ⟨cl, hcl⟩ : ∃ cl, p.toList.get? (p.toList.length - 1) = some cl := by
      have hlt : p.toList.length - 1 < p.toList.length := by omega
      cases hv : p.toList.get? (p.toList.length - 1) with
      | none => rw [List.get?_eq_none] at hv; omega
      | some a => exact ⟨a, rfl⟩
    have hcsl : cs.get? (i + (p.toList.length - 1)) = some cl :=
      (hget _ (by omega)).trans hcl
    have hwordl : wordAt cs (i + p.toList.length - 1) = true := by
      unfold wordAt
      have he : i + p.toList.length - 1 = i + (p.toList.length - 1) := by omega
      rw [he, hcsl]
      exact hw cl (List.get?_mem hcl)
    unfold isBoundary at hb2
    rw [if_neg (by omega), hwordl] at hb2
    cases hv : wordAt cs (i + p.toList.length) with
    | false => rfl
    | true => rw [hv] at hb2; exact absurd hb2 (by decide)

/-- C7: boundary exactness.  For every non-empty pattern made of word
characters, an EXACT_MATCH rule never yields a candidate span strictly
inside a larger word: every match the mode-dispatched matcher produces has
no word character immediately before or immediately after its span.  The
same pattern `cat` as a REGEX rule with no anchors does yield the inner
match `[0,3)` of `category` (position 3 holds a word character), while the
EXACT_MATCH rule yields no match there at all. -/
theorem c7_boundary_exactness (p text : String) (hne : p ≠ "")
    (hw : ∀ c ∈ p.toList, isWordChar c = true) :
    (∀ ms, ruleMatcher pyFinditer ⟨p, "L", EXACT_MATCH, ""⟩ text = some (Except.ok ms) →
      ∀ m ∈ ms, ∃ i, m = mkMatch ⟨true, false, p.toList, true⟩ i ∧
        (i = 0 ∨ wordAt text.toList (i - 1) = false) ∧
        wordAt text.toList (i + p.toList.length) = false) ∧
    ruleMatcher pyFinditer ⟨"cat", "L", REGEX, ""⟩ ("category") =
      some (Except.ok [⟨[some (0, 3)]⟩]) ∧
    wordAt ("category").toList 3 = true ∧
    ruleMatcher pyFinditer ⟨"cat", "L", EXACT_MATCH, ""⟩ ("category") =
      some (Except.ok []) := by
  have hne' : p.toList ≠ [] := by
    intro hcontra
    exact hne (String.ext hcontra)
  refine ⟨?_, rfl, rfl, rfl⟩
  intro ms hms m hm
  have hms' : pyFinditer ("\\b" ++ p ++ "\\b") text false = Except.ok ms := by
    unfold ruleMatcher at hms
    rw [if_pos rfl] at hms
    exact Option.some.inj hms
  unfold pyFinditer at hms'
  rw [compileRegex_exact hne' hw] at hms'
  dsimp only at hms'
  injection hms' with hms'
  rw [← hms'] at hm
  rcases mem_scanFrom _ _ m hm with ⟨i, hTry, rfl⟩
  exact ⟨i, rfl, tryMatchAt_exact hne' hw hTry⟩

theorem c7_boundary_exactness_witness :
    ∃ i, mkMatch ⟨true, false, ("cat").toList, true⟩ 2 =
        mkMatch ⟨true, false, ("cat").toList, true⟩ i ∧
      (i = 0 ∨ wordAt ("a cat!").toList (i - 1) = false) ∧
      wordAt ("a cat!").toList (i + ("cat").toList.length) = false :=
  (c7_boundary_exactness ("cat") ("a cat!") (by decide) (by decide)).1
    [mkMatch ⟨true, false, ("cat").toList, true⟩ 2] rfl
    (mkMatch ⟨true, false, ("cat").toList, true⟩ 2) (List.mem_singleton.mpr rfl)

/-! ## Dictionary parser: dedup refinement (claims C8, C10) -/

/-- Specification-side definition (section 4.1 of the spec, without the
duplicate check): the rule a row yields in isolation — at least 2 fields,
pattern and label trimmed and non-empty, mode lower-cased and defaulted to
EXACT when unrecognized, group defaulted to the empty string, and the
label-length check. -/
def specRowRule (MAX_LABEL_LENGTH : Option Nat) (row : List String) : Option LabelPattern :=
  if row.length < 2 then none
  else
    let pattern := pyStrip (row.getD 0 "")
    let label := pyStrip (row.getD 1 "")
    let mode0 := pyLower (pyStrip (row.getD 2 ""))
    let group := if 3 < row.length then pyStrip (row.getD 3 "") else ""
    let mode := if MATCHING_MODES.contains mode0 then mode0 else EXACT_MATCH
    if pattern = "" ∨ label = "" then none
    else if labelInvalid MAX_LABEL_LENGTH label then none
    else some ⟨pattern, label, mode, group⟩

/-- Specification-side definition: keep the first occurrence of every
`(pattern, mode)` key, preserving order; `seen` holds the keys already
taken. -/
def specDedupFirst (seen : List (String × String)) : List LabelPattern → List LabelPattern
  | [] => []
  | r :: rs =>
    if seen.contains (r.pattern, r.matching_mode) then specDedupFirst seen rs
    else r :: specDedupFirst (seen ++ [(r.pattern, r.matching_mode)]) rs

theorem parseStep_characterization (mx : Option Nat) (acc : List LabelPattern)
    (seen : List (String × String)) (row : List String)
    (st' : List LabelPattern × List (String × String))
    (h : parseStep mx (acc, seen) row = Except.ok st') :
    (∃ r, specRowRule mx row = some r ∧
        seen.contains (r.pattern, r.matching_mode) = false ∧
        st' = (acc ++ [r], seen ++ [(r.pattern, r.matching_mode)])) ∨
    ((specRowRule mx row = none ∨
        ∃ r, specRowRule mx row = some r ∧
          seen.contains (r.pattern, r.matching_mode) = true) ∧
      st' = (acc, seen)) := by
  unfold parseStep at h
  by_cases h1 : row.length < 2
  · rw [if_pos h1] at h
    injection h with h
    exact Or.inr ⟨Or.inl (by unfold specRowRule; rw [if_pos h1]), h.symm⟩
  · rw [if_neg h1] at h
    dsimp only at h
    cases hg : row.get? 2 with
    | none => rw [hg] at h; cases h
    | some c2 =>
      rw [hg] at h
      dsimp only at h
      have hgd : row.getD 2 "" = c2 := by
        rw [List.getD_eq_getD_get?, hg]
        rfl
      have hspec : specRowRule mx row =
          (if pyStrip (row.getD 0 "") = "" ∨ pyStrip (row.getD 1 "") = "" then none
          else if labelInvalid mx (pyStrip (row.getD 1 "")) then none
          else some ⟨pyStrip (row.getD 0 ""), pyStrip (row.getD 1 ""),
            (if MATCHING_MODES.contains (pyLower (pyStrip c2)) then pyLower (pyStrip c2)
              else EXACT_MATCH),
            if 3 < row.length then pyStrip (row.getD 3 "") else ""⟩) := by
        unfold specRowRule
        rw [if_neg h1, hgd]
      by_cases h2 : pyStrip (row.getD 0 "") = "" ∨ pyStrip (row.getD 1 "") = ""
      · rw [if_pos h2] at h
        injection h with h
        refine Or.inr ⟨Or.inl ?_, h.symm⟩
        rw [hspec, if_pos h2]
      · rw [if_neg h2] at h
        rw [hspec, if_neg h2]
        by_cases h3 : seen.contains (pyStrip (row.getD 0 ""),
            if MATCHING_MODES.contains (pyLower (pyStrip c2)) then pyLower (pyStrip c2)
            else EXACT_MATCH) = true
        · rw [if_pos h3] at h
          injection h with h
          by_cases h4 : labelInvalid mx (pyStrip (row.getD 1 "")) = true
          · exact Or.inr ⟨Or.inl (by rw [if_pos h4]), h.symm⟩
          · refine Or.inr ⟨Or.inr ⟨⟨pyStrip (row.getD 0 ""), pyStrip (row.getD 1 ""),
              (if MATCHING_MODES.contains (pyLower (pyStrip c2)) then pyLower (pyStrip c2)
                else EXACT_MATCH),
              if 3 < row.length then pyStrip (row.getD 3 "") else ""⟩, ?_, h3⟩, h.symm⟩
            rw [if_neg h4]
        · rw [if_neg h3] at h
          by_cases h4 : labelInvalid mx (pyStrip (row.getD 1 "")) = true
          · rw [if_pos h4] at h
            injection h with h
            exact Or.inr ⟨Or.inl (by rw [if_pos h4]), h.symm⟩
          · rw [if_neg h4] at h
            injection h with h
            refine Or.inl ⟨_, by rw [if_neg h4], ?_, h.symm⟩
            simpa using h3

theorem parse_fold_spec (mx : Option Nat) :
    ∀ (rows : List (List String)) (acc : List LabelPattern)
      (seen : List (String × String)) (st : List LabelPattern × List (String × String)),
      foldE (parseStep mx) (acc, seen) rows = Except.ok st →
      st.1 = acc ++ specDedupFirst seen (rows.filterMap (specRowRule mx)) := by
  intro rows
  induction rows with
  | nil =>
    intro acc seen st h
    simp only [foldE] at h
    injection h with h
    rw [← h]
    simp [specDedupFirst]
  | cons row rest ih =>
    intro acc seen st h
    simp only [foldE] at h
    cases hs : parseStep mx (acc, seen) row with
    | error e => rw [hs] at h; cases h
    | ok st1 =>
      rw [hs] at h
      rcases parseStep_characterization mx acc seen row st1 hs with
        ⟨r, hr, hdup, rfl⟩ | ⟨hskip, rfl⟩
      · have hrec := ih (acc ++ [r]) (seen ++ [(r.pattern, r.matching_mode)]) st h
        rw [hrec, List.filterMap_cons, hr]
        simp only [specDedupFirst, hdup, Bool.false_eq_true, if_false, List.append_assoc,
          List.cons_append, List.nil_append]
      · have hrec := ih acc seen st h
        rw [hrec]
        rcases hskip with hnone | ⟨r, hr, hdup⟩
        · rw [List.filterMap_cons, hnone]
        · rw [List.filterMap_cons, hr]
          simp only [specDedupFirst, hdup, if_true]

/-- C8: dictionary dedup.  Whenever `_ParseDictionary` completes, its output
is exactly the first-occurrence-wins deduplication, on the
`(trimmed pattern, normalized mode)` key, of the rules the rows yield
individually, in input row order: for two accepted-shape rows with the same
key only the first contributes a rule (the second is skipped), and the
accepted rules keep the input order. -/
theorem c8_dictionary_dedup (mx : Option Nat) (rows : List (List String))
    (out : List LabelPattern)
    (h : _ParseDictionary mx rows = Except.ok out) :
    out = specDedupFirst [] (rows.filterMap (specRowRule mx)) := by
  unfold _ParseDictionary at h
  cases hf : foldE (parseStep mx) ([], []) rows with
  | error e => rw [hf] at h; cases h
  | ok st =>
    rw [hf] at h
    dsimp only at h
    injection h with h
    rw [← h]
    simpa using parse_fold_spec mx rows [] [] st hf

theorem c8_dictionary_dedup_witness :
    _ParseDictionary none [["a", "L1", "e"], ["a", "L2", "e"], ["b", "L3", "r"]] =
      Except.ok [⟨"a", "L1", "e", ""⟩, ⟨"b", "L3", "r", ""⟩] ∧
    ([⟨"a", "L1", "e", ""⟩, ⟨"b", "L3", "r", ""⟩] : List LabelPattern) =
      specDedupFirst []
        (([["a", "L1", "e"], ["a", "L2", "e"], ["b", "L3", "r"]]).filterMap
          (specRowRule none)) :=
  ⟨rfl, c8_dictionary_dedup none [["a", "L1", "e"], ["a", "L2", "e"], ["b", "L3", "r"]]
    [⟨"a", "L1", "e", ""⟩, ⟨"b", "L3", "r", ""⟩] rfl⟩

/-- C10: the duplicate tracker registers a `(pattern, mode)` key only when a
row passes every validation check.  If the first row carrying a key is
itself rejected by the label-length check, a later row with the same key is
still accepted rather than skipped as a duplicate. -/
theorem c10_dedup_registration (mx : Option Nat) (p l1 l2 ms : String)
    (hp : pyStrip p ≠ "") (h1 : pyStrip l1 ≠ "") (h2 : pyStrip l2 ≠ "")
    (hbad : labelInvalid mx (pyStrip l1) = true)
    (hgood : labelInvalid mx (pyStrip l2) = false) :
    _ParseDictionary mx [[p, l1, ms], [p, l2, ms]] =
      Except.ok [⟨pyStrip p, pyStrip l2,
        (if MATCHING_MODES.contains (pyLower (pyStrip ms)) then pyLower (pyStrip ms)
          else EXACT_MATCH), ""⟩] := by
  have s1 : parseStep mx (([] : List LabelPattern), ([] : List (String × String)))
      [p, l1, ms] = Except.ok ([], []) := by
    unfold parseStep
    rw [if_neg (by simp)]
    dsimp only [List.getD, List.get?, Option.getD]
    rw [if_neg (by simp [hp, h1])]
    rw [if_neg (by simp)]
    rw [if_pos hbad]
  have s2 : parseStep mx (([] : List LabelPattern), ([] : List (String × String)))
      [p, l2, ms] = Except.ok
        ([⟨pyStrip p, pyStrip l2,
          (if MATCHING_MODES.contains (pyLower (pyStrip ms)) then pyLower (pyStrip ms)
            else EXACT_MATCH), ""⟩],
        [(pyStrip p,
          if MATCHING_MODES.contains (pyLower (pyStrip ms)) then pyLower (pyStrip ms)
          else EXACT_MATCH)]) := by
    unfold parseStep
    rw [if_neg (by simp)]
    dsimp only [List.getD, List.get?, Option.getD]
    rw [if_neg (by simp [hp, h2])]
    rw [if_neg (by simp)]
    rw [if_neg (by simp [hgood])]
    simp
  unfold _ParseDictionary
  simp only [foldE, s1, s2]

theorem c10_dedup_registration_witness :
    _ParseDictionary (some 2) [["p", "LABEL", "e"], ["p", "OK", "e"]] =
      Except.ok [⟨"p", "OK", "e", ""⟩] :=
  c10_dedup_registration (some 2) ("p") ("LABEL") ("OK") ("e")
    (by decide) (by decide) (by decide) (by decide) (by decide)
